import Mathlib

/-!
A shallow embedding of the pokedex-challenge core pipeline
(`app/clients/pokeapi_client.py`, `app/clients/translation_client.py`,
`app/services/pokemon_service.py`, `app/models.py`) and proofs about it.

Modelling conventions:
* JSON values are the inductive `Json` (the payloads relevant here carry no
  numbers, so a number constructor is omitted).
* `json.dumps` / `json.loads` are modelled by an executable printer
  (`jDumps`) and parser (`jLoads`) over the same grammar; the roundtrip
  theorem `jLoads_jDumps` is proved, mirroring Python's guarantee for the
  values the code caches.
* The Redis cache is an association list `Cache`; `setex` ignores the TTL
  (no claim involves expiry).  Python's `if cached_data:` truthiness test
  (false for both a missing key and an empty string) is modelled by
  `redisHit`.
* The external HTTP endpoints are oracles passed as function arguments; a
  response is `HttpResp.ok body` (2xx with a JSON-decodable body),
  `HttpResp.badJson` (2xx whose body fails JSON decoding),
  `HttpResp.status code` (a 4xx/5xx response, on which
  `response.raise_for_status()` raises `httpx.HTTPStatusError`), or
  `HttpResp.transport msg` (`httpx.RequestError`: timeout, connection
  error).
* Each embedded operation returns its result together with the final cache
  state and the list of upstream requests it issued.
* Errors: `Err.http status detail` models a raised
  `fastapi.HTTPException` / `APIClientError`; `Err.py msg` models an
  uncaught Python exception (`KeyError`, `AttributeError`, `TypeError`,
  `json.JSONDecodeError`, pydantic `ValidationError`).  Pydantic populates
  an aliased field only from its alias (`populate_by_name` is never set in
  `app/models.py`), so the `PokemonSpeciesData(description=...)` keyword
  construction always raises `ValidationError` — `description` is declared
  `Field(alias="flavor_text")` — after the constructor arguments have been
  evaluated; `parseSpecies` models exactly that.
* `str.lower` is modelled ASCII-faithfully by `pyLower`.
-/

/-- JSON values, as far as the cached payloads need them. -/
inductive Json where
  | null : Json
  | bool (b : Bool) : Json
  | str (s : String) : Json
  | arr (items : List Json) : Json
  | obj (fields : List (String × Json)) : Json

namespace Json

/-- Association-list lookup in an object, first binding wins (a Python dict
has unique keys, so for payloads decoded from JSON this is exact). -/
def lookup (k : String) : List (String × Json) → Option Json
  | [] => none
  | (k2, v) :: rest => if k2 = k then some v else lookup k rest

end Json

mutual

/-- Boolean equality on JSON values (decidable equality is derived from
it below; the automatic derivation does not support nested inductives). -/
def beqJ : Json → Json → Bool
  | .null, .null => true
  | .bool a, .bool b => a == b
  | .str a, .str b => a == b
  | .arr xs, .arr ys => beqA xs ys
  | .obj xs, .obj ys => beqO xs ys
  | _, _ => false

/-- Boolean equality on JSON item lists. -/
def beqA : List Json → List Json → Bool
  | [], [] => true
  | x :: xs, y :: ys => beqJ x y && beqA xs ys
  | _, _ => false

/-- Boolean equality on JSON field lists. -/
def beqO : List (String × Json) → List (String × Json) → Bool
  | [], [] => true
  | (k1, v1) :: xs, (k2, v2) :: ys => k1 == k2 && beqJ v1 v2 && beqO xs ys
  | _, _ => false

end

/-- Structural size of a JSON value, used to bound parser fuel. -/
def sizeJ : Json → Nat
  | .null => 1
  | .bool _ => 1
  | .str _ => 1
  | .arr xs => 1 + sizeA xs
  | .obj kvs => 1 + sizeO kvs
where
  sizeA : List Json → Nat
    | [] => 0
    | x :: rest => 1 + sizeJ x + sizeA rest
  sizeO : List (String × Json) → Nat
    | [] => 0
    | (_, v) :: rest => 1 + sizeJ v + sizeO rest

/-- Soundness and completeness of the boolean equalities, all sizes at
once, by strong induction on a fuel bound. -/
theorem beq_iff_eq_all (n : Nat) :
    (∀ a b : Json, sizeJ a ≤ n → (beqJ a b = true ↔ a = b)) ∧
    (∀ xs ys : List Json, sizeJ.sizeA xs ≤ n → (beqA xs ys = true ↔ xs = ys)) ∧
    (∀ xs ys : List (String × Json), sizeJ.sizeO xs ≤ n →
      (beqO xs ys = true ↔ xs = ys)) := by
  induction n with
  | zero =>
    refine ⟨fun a b h => absurd h (by cases a <;> simp [sizeJ]), ?_, ?_⟩
    · intro xs ys h
      cases xs with
      | nil => cases ys <;> simp [beqA]
      | cons x xs => simp [sizeJ.sizeA] at h
    · intro xs ys h
      cases xs with
      | nil => cases ys <;> simp [beqO]
      | cons x xs => obtain ⟨k, v⟩ := x; simp [sizeJ.sizeO] at h
  | succ n ih =>
    obtain ⟨ihJ, ihA, ihO⟩ := ih
    refine ⟨?_, ?_, ?_⟩
    · intro a b h
      cases a with
      | null => cases b <;> simp [beqJ]
      | bool x => cases b <;> simp [beqJ]
      | str s => cases b <;> simp [beqJ]
      | arr xs =>
        cases b with
        | arr ys => simpa [beqJ] using ihA xs ys (by simp [sizeJ] at h; omega)
        | null => simp [beqJ]
        | bool _ => simp [beqJ]
        | str _ => simp [beqJ]
        | obj _ => simp [beqJ]
      | obj xs =>
        cases b with
        | obj ys => simpa [beqJ] using ihO xs ys (by simp [sizeJ] at h; omega)
        | null => simp [beqJ]
        | bool _ => simp [beqJ]
        | str _ => simp [beqJ]
        | arr _ => simp [beqJ]
    · intro xs ys h
      cases xs with
      | nil => cases ys <;> simp [beqA]
      | cons x xs =>
        cases ys with
        | nil => simp [beqA]
        | cons y ys =>
          simp only [sizeJ.sizeA] at h
          simp only [beqA, Bool.and_eq_true, List.cons.injEq]
          exact and_congr (ihJ x y (by omega)) (ihA xs ys (by omega))
    · intro xs ys h
      cases xs with
      | nil => cases ys <;> simp [beqO]
      | cons x xs =>
        obtain ⟨k, v⟩ := x
        cases ys with
        | nil => simp [beqO]
        | cons y ys =>
          obtain ⟨k2, v2⟩ := y
          simp only [sizeJ.sizeO] at h
          simp only [beqO, Bool.and_eq_true, List.cons.injEq, Prod.mk.injEq,
            beq_iff_eq]
          rw [ihJ v v2 (by omega), ihO xs ys (by omega)]

instance : DecidableEq Json := fun a b =>
  decidable_of_iff (beqJ a b = true) ((beq_iff_eq_all (sizeJ a)).1 a b le_rfl)

/-- Serialization of one string character, `json.dumps` style (the escapes
the cached payloads can contain: backslash, double quote, newline, form
feed). -/
def escChar (c : Char) : List Char :=
  if c = '\\' then ['\\', '\\']
  else if c = '"' then ['\\', '"']
  else if c = '\n' then ['\\', 'n']
  else if c = Char.ofNat 12 then ['\\', 'f']
  else [c]

/-- Escape every character of a string body. -/
def escAll : List Char → List Char
  | [] => []
  | c :: rest => escChar c ++ escAll rest

/-- Serialization of a JSON string literal (opening and closing quotes
around the escaped body). -/
def renderStr (s : List Char) : List Char :=
  '"' :: escAll s ++ ['"']

mutual

/-- `json.dumps`: render a JSON value to characters, with Python's default
separators (`", "` and `": "`). -/
def render : Json → List Char
  | .null => "null".data
  | .bool true => "true".data
  | .bool false => "false".data
  | .str s => renderStr s.data
  | .arr xs => '[' :: renderItems xs ++ [']']
  | .obj kvs => '{' :: renderFields kvs ++ ['}']

/-- Comma-separated rendering of array items. -/
def renderItems : List Json → List Char
  | [] => []
  | [x] => render x
  | x :: y :: rest => render x ++ ',' :: ' ' :: renderItems (y :: rest)

/-- Comma-separated rendering of object fields (`"key": value`). -/
def renderFields : List (String × Json) → List Char
  | [] => []
  | [(k, v)] => renderStr k.data ++ ':' :: ' ' :: render v
  | (k, v) :: w :: rest =>
      renderStr k.data ++ ':' :: ' ' :: render v ++ ',' :: ' ' :: renderFields (w :: rest)

end

/-- `json.dumps` on a value, producing the cached string. -/
def jDumps (j : Json) : String := ⟨render j⟩

/-- Unescape one escaped character of a JSON string literal. -/
def unescChar (c : Char) : Option Char :=
  if c = '\\' then some '\\'
  else if c = '"' then some '"'
  else if c = 'n' then some '\n'
  else if c = 'f' then some (Char.ofNat 12)
  else none

/-- Parse the body of a string literal (after the opening quote) up to and
including the closing quote; returns the decoded body and the remaining
input. -/
def parseStrBody : List Char → Option (List Char × List Char)
  | [] => none
  | c :: rest =>
    if c = '"' then some ([], rest)
    else if c = '\\' then
      match rest with
      | [] => none
      | e :: rest2 =>
        match unescChar e with
        | none => none
        | some d => (parseStrBody rest2).map (fun p => (d :: p.1, p.2))
    else (parseStrBody rest).map (fun p => (c :: p.1, p.2))
termination_by structural cs => cs

mutual

/-- Fuel-bounded JSON parser: one value, returning the remaining input. -/
def parseV : Nat → List Char → Option (Json × List Char)
  | 0, _ => none
  | _ + 1, [] => none
  | fuel + 1, c :: rest =>
    if c = 'n' then
      if rest.take 3 = ['u', 'l', 'l'] then some (.null, rest.drop 3) else none
    else if c = 't' then
      if rest.take 3 = ['r', 'u', 'e'] then some (.bool true, rest.drop 3) else none
    else if c = 'f' then
      if rest.take 4 = ['a', 'l', 's', 'e'] then some (.bool false, rest.drop 4)
      else none
    else if c = '"' then
      (parseStrBody rest).map (fun p => (.str ⟨p.1⟩, p.2))
    else if c = '[' then
      if rest.headD ' ' = ']' then some (.arr [], rest.tail)
      else (parseItems fuel rest).map (fun p => (.arr p.1, p.2))
    else if c = '{' then
      if rest.headD ' ' = '}' then some (.obj [], rest.tail)
      else (parseFields fuel rest).map (fun p => (.obj p.1, p.2))
    else none

/-- Parse a non-empty comma-separated item list, consuming the closing
bracket. -/
def parseItems : Nat → List Char → Option (List Json × List Char)
  | 0, _ => none
  | fuel + 1, cs =>
    match parseV fuel cs with
    | none => none
    | some (v, r) =>
      match r with
      | [] => none
      | c :: r2 =>
        if c = ']' then some ([v], r2)
        else if c = ',' then
          match r2 with
          | [] => none
          | c2 :: r3 =>
            if c2 = ' ' then (parseItems fuel r3).map (fun p => (v :: p.1, p.2))
            else none
        else none

/-- Parse a non-empty comma-separated field list, consuming the closing
brace. -/
def parseFields : Nat → List Char → Option (List (String × Json) × List Char)
  | 0, _ => none
  | fuel + 1, cs =>
    match cs with
    | [] => none
    | c0 :: cs2 =>
      if c0 = '"' then
        match parseStrBody cs2 with
        | none => none
        | some (k, r) =>
          match r with
          | [] => none
          | c :: r1 =>
            if c = ':' then
              match r1 with
              | [] => none
              | c1 :: r2 =>
                if c1 = ' ' then
                  match parseV fuel r2 with
                  | none => none
                  | some (v, r3) =>
                    match r3 with
                    | [] => none
                    | c3 :: r4 =>
                      if c3 = '}' then some ([(⟨k⟩, v)], r4)
                      else if c3 = ',' then
                        match r4 with
                        | [] => none
                        | c4 :: r5 =>
                          if c4 = ' ' then
                            (parseFields fuel r5).map
                              (fun p => ((⟨k⟩, v) :: p.1, p.2))
                          else none
                      else none
                else none
            else none
      else none

end

/-- `json.loads`: parse a string as a single JSON value (the whole input
must be consumed). -/
def jLoads (s : String) : Option Json :=
  match parseV (s.data.length + 1) s.data with
  | some (j, []) => some j
  | _ => none

/-- The first character a rendered value starts with, by constructor. -/
def headOf : Json → Char
  | .null => 'n'
  | .bool true => 't'
  | .bool false => 'f'
  | .str _ => '"'
  | .arr _ => '['
  | .obj _ => '{'

/-- Every rendered value is nonempty and starts with its `headOf`
character. -/
theorem render_cons (j : Json) : ∃ t, render j = headOf j :: t := by
  cases j with
  | null => exact ⟨_, rfl⟩
  | bool b => cases b <;> exact ⟨_, rfl⟩
  | str s => exact ⟨_, rfl⟩
  | arr xs => exact ⟨_, rfl⟩
  | obj kvs => exact ⟨_, rfl⟩

/-- A rendered value never starts with a list/object terminator or a
separator. -/
theorem headOf_notMem (j : Json) :
    headOf j ≠ ']' ∧ headOf j ≠ '}' ∧ headOf j ≠ ',' := by
  cases j with
  | bool b => cases b <;> simp only [headOf] <;> decide
  | null => simp only [headOf]; decide
  | str s => simp only [headOf]; decide
  | arr xs => simp only [headOf]; decide
  | obj kvs => simp only [headOf]; decide

/-- Every rendered JSON value has size at most its rendering length plus
one, so `jLoads`'s fuel is always sufficient (proved below together with
the item/field variants). -/
theorem sizeJ_pos (j : Json) : 1 ≤ sizeJ j := by
  cases j <;> simp [sizeJ]

/-- A nonempty item list has positive size. -/
theorem sizeA_pos (x : Json) (xs : List Json) :
    1 ≤ sizeJ.sizeA (x :: xs) := by
  simp [sizeJ.sizeA]; omega

/-- A nonempty field list has positive size. -/
theorem sizeO_pos (kv : String × Json) (kvs : List (String × Json)) :
    1 ≤ sizeJ.sizeO (kv :: kvs) := by
  obtain ⟨k, v⟩ := kv; simp [sizeJ.sizeO]; omega

/-- Step lemma: `parseStrBody` at a closing quote. -/
theorem parseStrBody_quote (rest : List Char) :
    parseStrBody ('"' :: rest) = some ([], rest) := by
  rw [parseStrBody.eq_def]; simp

/-- Step lemma: `parseStrBody` at an escape sequence. -/
theorem parseStrBody_esc (e : Char) (rest : List Char) :
    parseStrBody ('\\' :: e :: rest) =
      match unescChar e with
      | none => none
      | some d => (parseStrBody rest).map (fun p => (d :: p.1, p.2)) := by
  rw [parseStrBody.eq_def]; simp

/-- Step lemma: `parseStrBody` at an unescaped ordinary character. -/
theorem parseStrBody_raw (c : Char) (rest : List Char) (h1 : c ≠ '"')
    (h2 : c ≠ '\\') :
    parseStrBody (c :: rest) = (parseStrBody rest).map (fun p => (c :: p.1, p.2)) := by
  rw [parseStrBody.eq_def]; simp [h1, h2]

/-- Parsing the rendered body of a string literal recovers the original
characters and leaves the trailing input untouched. -/
theorem parseStrBody_escape (s rest : List Char) :
    parseStrBody (escAll s ++ '"' :: rest) = some (s, rest) := by
  induction s with
  | nil => simp [escAll, parseStrBody_quote]
  | cons c s ih =>
    by_cases h1 : c = '\\'
    · subst h1
      simp only [escAll]
      rw [show escChar '\\' = ['\\', '\\'] from rfl]
      simp only [List.cons_append, List.nil_append, List.append_assoc]
      rw [parseStrBody_esc]
      simp [show unescChar '\\' = some '\\' from rfl, ih]
    · by_cases h2 : c = '"'
      · subst h2
        simp only [escAll]
        rw [show escChar '"' = ['\\', '"'] from rfl]
        simp only [List.cons_append, List.nil_append, List.append_assoc]
        rw [parseStrBody_esc]
        simp [show unescChar '"' = some '"' from rfl, ih]
      · by_cases h3 : c = '\n'
        · subst h3
          simp only [escAll]
          rw [show escChar '\n' = ['\\', 'n'] from rfl]
          simp only [List.cons_append, List.nil_append, List.append_assoc]
          rw [parseStrBody_esc]
          simp [show unescChar 'n' = some '\n' from rfl, ih]
        · by_cases h4 : c = Char.ofNat 12
          · subst h4
            simp only [escAll]
            rw [show escChar (Char.ofNat 12) = ['\\', 'f'] from rfl]
            simp only [List.cons_append, List.nil_append, List.append_assoc]
            rw [parseStrBody_esc]
            simp [show unescChar 'f' = some (Char.ofNat 12) from rfl, ih]
          · have he : escChar c = [c] := by simp [escChar, h1, h2, h3, h4]
            simp only [escAll]
            rw [he]
            simp only [List.cons_append, List.nil_append, List.append_assoc,
              List.singleton_append]
            rw [parseStrBody_raw c _ h2 h1]
            simp [ih]

/-- Step lemma: `parseV` with positive fuel at a nonempty input. -/
theorem parseV_succ (fuel : Nat) (c : Char) (rest : List Char) :
    parseV (fuel + 1) (c :: rest) =
      (if c = 'n' then
        if rest.take 3 = ['u', 'l', 'l'] then some (.null, rest.drop 3) else none
      else if c = 't' then
        if rest.take 3 = ['r', 'u', 'e'] then some (.bool true, rest.drop 3)
        else none
      else if c = 'f' then
        if rest.take 4 = ['a', 'l', 's', 'e'] then some (.bool false, rest.drop 4)
        else none
      else if c = '"' then
        (parseStrBody rest).map (fun p => (.str ⟨p.1⟩, p.2))
      else if c = '[' then
        if rest.headD ' ' = ']' then some (.arr [], rest.tail)
        else (parseItems fuel rest).map (fun p => (.arr p.1, p.2))
      else if c = '{' then
        if rest.headD ' ' = '}' then some (.obj [], rest.tail)
        else (parseFields fuel rest).map (fun p => (.obj p.1, p.2))
      else none) := by
  rw [parseV.eq_def]

/-- Step lemma: `parseItems` with positive fuel. -/
theorem parseItems_succ (fuel : Nat) (cs : List Char) :
    parseItems (fuel + 1) cs =
      (match parseV fuel cs with
      | none => none
      | some (v, r) =>
        match r with
        | [] => none
        | c :: r2 =>
          if c = ']' then some ([v], r2)
          else if c = ',' then
            match r2 with
            | [] => none
            | c2 :: r3 =>
              if c2 = ' ' then
                (parseItems fuel r3).map (fun p => (v :: p.1, p.2))
              else none
          else none) := by
  rw [parseItems.eq_def]

/-- Step lemma: `parseFields` with positive fuel. -/
theorem parseFields_succ (fuel : Nat) (cs : List Char) :
    parseFields (fuel + 1) cs =
      (match cs with
      | [] => none
      | c0 :: cs2 =>
        if c0 = '"' then
          match parseStrBody cs2 with
          | none => none
          | some (k, r) =>
            match r with
            | [] => none
            | c :: r1 =>
              if c = ':' then
                match r1 with
                | [] => none
                | c1 :: r2 =>
                  if c1 = ' ' then
                    match parseV fuel r2 with
                    | none => none
                    | some (v, r3) =>
                      match r3 with
                      | [] => none
                      | c3 :: r4 =>
                        if c3 = '}' then some ([(⟨k⟩, v)], r4)
                        else if c3 = ',' then
                          match r4 with
                          | [] => none
                          | c4 :: r5 =>
                            if c4 = ' ' then
                              (parseFields fuel r5).map
                                (fun p => ((⟨k⟩, v) :: p.1, p.2))
                            else none
                        else none
                  else none
              else none
        else none) := by
  rw [parseFields.eq_def]

/-- The first character of a rendered nonempty item list is the head
value's first character. -/
theorem renderItems_cons_head (x : Json) (xs : List Json) :
    ∃ t, renderItems (x :: xs) = headOf x :: t := by
  obtain ⟨t, ht⟩ := render_cons x
  cases xs with
  | nil => exact ⟨t, by simp [renderItems, ht]⟩
  | cons y ys =>
    exact ⟨t ++ ',' :: ' ' :: renderItems (y :: ys), by simp [renderItems, ht]⟩

/-- The first character of a rendered nonempty field list is the opening
quote of its first key. -/
theorem renderFields_cons_head (k : String) (v : Json)
    (kvs : List (String × Json)) :
    ∃ t, renderFields ((k, v) :: kvs) = '"' :: t := by
  cases kvs with
  | nil =>
    refine ⟨escAll k.data ++ ['"'] ++ ':' :: ' ' :: render v, ?_⟩
    simp [renderFields, renderStr]
  | cons w ws =>
    refine ⟨escAll k.data ++ ['"'] ++
      (':' :: ' ' :: render v ++ ',' :: ' ' :: renderFields (w :: ws)), ?_⟩
    simp [renderFields, renderStr]

/-- Parsing a rendered value (with any trailing input) succeeds and
recovers the value exactly, given sufficient fuel; similarly for nonempty
item and field lists followed by their closing bracket. -/
theorem parse_render_all (fuel : Nat) :
    (∀ (j : Json) (rest : List Char), sizeJ j ≤ fuel →
      parseV fuel (render j ++ rest) = some (j, rest)) ∧
    (∀ (xs : List Json) (rest : List Char), xs ≠ [] → sizeJ.sizeA xs ≤ fuel →
      parseItems fuel (renderItems xs ++ ']' :: rest) = some (xs, rest)) ∧
    (∀ (kvs : List (String × Json)) (rest : List Char), kvs ≠ [] →
      sizeJ.sizeO kvs ≤ fuel →
      parseFields fuel (renderFields kvs ++ '}' :: rest) = some (kvs, rest)) := by
  induction fuel with
  | zero =>
    refine ⟨fun j rest h => absurd h (by have := sizeJ_pos j; omega), ?_, ?_⟩
    · rintro (_ | ⟨x, xs⟩) rest hne h
      · exact absurd rfl hne
      · exact absurd h (by have := sizeA_pos x xs; omega)
    · rintro (_ | ⟨kv, kvs⟩) rest hne h
      · exact absurd rfl hne
      · exact absurd h (by have := sizeO_pos kv kvs; omega)
  | succ fuel ih =>
    obtain ⟨ihJ, ihA, ihO⟩ := ih
    refine ⟨?_, ?_, ?_⟩
    · intro j rest h
      cases j with
      | null =>
        simp only [render]
        rw [show ("null".data : List Char) ++ rest =
          'n' :: 'u' :: 'l' :: 'l' :: rest from rfl]
        rw [parseV_succ]
        simp +decide
      | bool b =>
        cases b with
        | true =>
          simp only [render]
          rw [show ("true".data : List Char) ++ rest =
            't' :: 'r' :: 'u' :: 'e' :: rest from rfl]
          rw [parseV_succ]
          simp +decide
        | false =>
          simp only [render]
          rw [show ("false".data : List Char) ++ rest =
            'f' :: 'a' :: 'l' :: 's' :: 'e' :: rest from rfl]
          rw [parseV_succ]
          simp +decide
      | str s =>
        simp only [render, renderStr, List.cons_append, List.append_assoc,
          List.singleton_append, List.nil_append]
        rw [parseV_succ, parseStrBody_escape]
        simp +decide
      | arr xs =>
        cases xs with
        | nil =>
          simp only [render, renderItems, List.nil_append, List.cons_append,
            List.singleton_append]
          rw [parseV_succ]
          simp +decide
        | cons x xs2 =>
          have hsz : sizeJ.sizeA (x :: xs2) ≤ fuel := by
            simp only [sizeJ] at h; omega
          obtain ⟨t, ht⟩ := renderItems_cons_head x xs2
          simp only [render, List.cons_append, List.append_assoc,
            List.singleton_append, List.nil_append]
          rw [parseV_succ]
          rw [ihA (x :: xs2) rest (by simp) hsz]
          rw [ht]
          simp +decide [(headOf_notMem x).1]
      | obj kvs =>
        cases kvs with
        | nil =>
          simp only [render, renderFields, List.nil_append, List.cons_append,
            List.singleton_append]
          rw [parseV_succ]
          simp +decide
        | cons kv kvs2 =>
          obtain ⟨k, v⟩ := kv
          have hsz : sizeJ.sizeO ((k, v) :: kvs2) ≤ fuel := by
            simp only [sizeJ] at h; omega
          obtain ⟨t, ht⟩ := renderFields_cons_head k v kvs2
          simp only [render, List.cons_append, List.append_assoc,
            List.singleton_append, List.nil_append]
          rw [parseV_succ]
          rw [ihO ((k, v) :: kvs2) rest (by simp) hsz]
          rw [ht]
          simp +decide
    · intro xs rest hne h
      cases xs with
      | nil => exact absurd rfl hne
      | cons x xs2 =>
        cases xs2 with
        | nil =>
          have hsz : sizeJ x ≤ fuel := by
            simp only [sizeJ.sizeA] at h; omega
          simp only [renderItems]
          rw [parseItems_succ, ihJ x (']' :: rest) hsz]
          simp +decide
        | cons y ys =>
          have hszx : sizeJ x ≤ fuel := by
            simp only [sizeJ.sizeA] at h; omega
          have hszr : sizeJ.sizeA (y :: ys) ≤ fuel := by
            simp only [sizeJ.sizeA] at h ⊢; omega
          simp only [renderItems, List.append_assoc, List.cons_append]
          rw [parseItems_succ, ihJ x _ hszx]
          simp +decide
          rw [ihA (y :: ys) rest (by simp) hszr]
    · intro kvs rest hne h
      cases kvs with
      | nil => exact absurd rfl hne
      | cons kv kvs2 =>
        obtain ⟨k, v⟩ := kv
        cases kvs2 with
        | nil =>
          have hsz : sizeJ v ≤ fuel := by
            simp only [sizeJ.sizeO] at h; omega
          simp only [renderFields, renderStr, List.cons_append,
            List.append_assoc, List.singleton_append, List.nil_append]
          rw [parseFields_succ]
          simp +decide only []
          rw [parseStrBody_escape]
          simp +decide
          rw [ihJ v ('}' :: rest) hsz]
          simp +decide
        | cons w ws =>
          have hszv : sizeJ v ≤ fuel := by
            simp only [sizeJ.sizeO] at h; omega
          have hszr : sizeJ.sizeO (w :: ws) ≤ fuel := by
            simp only [sizeJ.sizeO] at h ⊢; omega
          simp only [renderFields, renderStr, List.cons_append,
            List.append_assoc, List.singleton_append, List.nil_append]
          rw [parseFields_succ]
          simp +decide only []
          rw [parseStrBody_escape]
          simp +decide
          rw [ihJ v _ hszv]
          simp +decide
          rw [ihO (w :: ws) rest (by simp) hszr]

/-- A value's structural size is bounded by its rendering's length (items
and fields: length plus one), so the fuel `jLoads` supplies is always
enough. -/
theorem sizeJ_le_render_len (n : Nat) :
    (∀ j : Json, sizeJ j ≤ n → sizeJ j ≤ (render j).length) ∧
    (∀ xs : List Json, sizeJ.sizeA xs ≤ n →
      sizeJ.sizeA xs ≤ (renderItems xs).length + 1) ∧
    (∀ kvs : List (String × Json), sizeJ.sizeO kvs ≤ n →
      sizeJ.sizeO kvs ≤ (renderFields kvs).length + 1) := by
  induction n with
  | zero =>
    refine ⟨fun j h => absurd h (by have := sizeJ_pos j; omega), ?_, ?_⟩
    · rintro (_ | ⟨x, xs⟩) h
      · simp [sizeJ.sizeA]
      · exact absurd h (by have := sizeA_pos x xs; omega)
    · rintro (_ | ⟨kv, kvs⟩) h
      · simp [sizeJ.sizeO]
      · exact absurd h (by have := sizeO_pos kv kvs; omega)
  | succ n ih =>
    obtain ⟨ihJ, ihA, ihO⟩ := ih
    refine ⟨?_, ?_, ?_⟩
    · intro j h
      cases j with
      | null => simp [sizeJ, render]
      | bool b => cases b <;> simp [sizeJ, render]
      | str s => simp [sizeJ, render, renderStr]
      | arr xs =>
        have hb : sizeJ.sizeA xs ≤ n := by simp only [sizeJ] at h; omega
        have := ihA xs hb
        simp only [sizeJ, render, List.length_cons, List.length_append,
          List.length_singleton]
        omega
      | obj kvs =>
        have hb : sizeJ.sizeO kvs ≤ n := by simp only [sizeJ] at h; omega
        have := ihO kvs hb
        simp only [sizeJ, render, List.length_cons, List.length_append,
          List.length_singleton]
        omega
    · intro xs h
      cases xs with
      | nil => simp [sizeJ.sizeA]
      | cons x xs2 =>
        cases xs2 with
        | nil =>
          have hx : sizeJ x ≤ n := by simp only [sizeJ.sizeA] at h; omega
          have := ihJ x hx
          simp only [sizeJ.sizeA] at h ⊢
          simp only [renderItems]
          omega
        | cons y ys =>
          have hx : sizeJ x ≤ n := by simp only [sizeJ.sizeA] at h; omega
          have hr : sizeJ.sizeA (y :: ys) ≤ n := by
            simp only [sizeJ.sizeA] at h ⊢; omega
          have h1 := ihJ x hx
          have h2 := ihA (y :: ys) hr
          simp only [sizeJ.sizeA] at h2 ⊢
          simp only [renderItems, List.length_append, List.length_cons]
          omega
    · intro kvs h
      cases kvs with
      | nil => simp [sizeJ.sizeO]
      | cons kv kvs2 =>
        obtain ⟨k, v⟩ := kv
        cases kvs2 with
        | nil =>
          have hv : sizeJ v ≤ n := by simp only [sizeJ.sizeO] at h; omega
          have := ihJ v hv
          simp only [sizeJ.sizeO] at h ⊢
          simp only [renderFields, List.length_append, List.length_cons]
          omega
        | cons w ws =>
          have hv : sizeJ v ≤ n := by simp only [sizeJ.sizeO] at h; omega
          have hr : sizeJ.sizeO (w :: ws) ≤ n := by
            simp only [sizeJ.sizeO] at h ⊢; omega
          have h1 := ihJ v hv
          have h2 := ihO (w :: ws) hr
          simp only [sizeJ.sizeO] at h2 ⊢
          simp only [renderFields, List.length_append, List.length_cons]
          omega

/-- `json.loads` inverts `json.dumps`: a cached serialized payload parses
back to exactly the payload that was serialized. -/
theorem jLoads_jDumps (j : Json) : jLoads (jDumps j) = some j := by
  have hlen : sizeJ j ≤ (render j).length + 1 := by
    have := (sizeJ_le_render_len (sizeJ j)).1 j le_rfl
    omega
  have h := (parse_render_all ((render j).length + 1)).1 j [] hlen
  rw [List.append_nil] at h
  simp only [jLoads, jDumps]
  rw [h]

/-- A serialized payload is never the empty string (so the Python
truthiness test on a cached entry always treats it as present). -/
theorem jDumps_ne_empty (j : Json) : jDumps j ≠ "" := by
  obtain ⟨t, ht⟩ := render_cons j
  intro hEq
  have h2 : render j = [] := congrArg String.data hEq
  rw [ht] at h2
  exact List.noConfusion h2

/-- The error taxonomy: `http status detail` is a raised
`fastapi.HTTPException` (`APIClientError` always carries status 503 and a
detail prefixed `External API Error: `); `py msg` is an uncaught Python
exception. -/
inductive Err where
  | http (status : Nat) (detail : String) : Err
  | py (msg : String) : Err
deriving Repr, DecidableEq

instance {ε α : Type} [DecidableEq ε] [DecidableEq α] :
    DecidableEq (Except ε α) := fun a b =>
  match a, b with
  | .error e1, .error e2 =>
    if h : e1 = e2 then .isTrue (by rw [h])
    else .isFalse (fun hh => h (Except.error.inj hh))
  | .ok v1, .ok v2 =>
    if h : v1 = v2 then .isTrue (by rw [h])
    else .isFalse (fun hh => h (Except.ok.inj hh))
  | .error _, .ok _ => .isFalse (fun hh => Except.noConfusion hh)
  | .ok _, .error _ => .isFalse (fun hh => Except.noConfusion hh)

/-- The Redis cache, as an association list from key to stored string;
the most recent write shadows older entries.  TTLs are not modelled (no
claim involves expiry). -/
abbrev Cache := List (String × String)

/-- `redis.get`: first binding wins. -/
def cacheGet : Cache → String → Option String
  | [], _ => none
  | (k, v) :: rest, key => if k = key then some v else cacheGet rest key

/-- `redis.setex` (TTL dropped): prepend, shadowing older bindings. -/
def cacheSet (c : Cache) (k v : String) : Cache := (k, v) :: c

/-- The Python truthiness test `if cached_data:` applied to a `redis.get`
result: a missing key and an empty cached string are both treated as a
miss. -/
def redisHit (c : Cache) (key : String) : Option String :=
  match cacheGet c key with
  | some s => if s = "" then none else some s
  | none => none

/-- One upstream HTTP exchange, from the adapter's point of view. -/
inductive HttpResp where
  | ok (body : Json) : HttpResp
  | badJson : HttpResp
  | status (code : Nat) : HttpResp
  | transport (msg : String) : HttpResp

/-- Python `str.lower()` (ASCII letters; the identifiers the service
handles are ASCII). -/
def pyLower (s : String) : String := ⟨s.data.map Char.toLower⟩

/-- Python `value[key]` subscription: `KeyError` on a missing key,
`TypeError` when the value is not a dict. -/
def pyGetItem (j : Json) (k : String) : Except Err Json :=
  match j with
  | .obj fields =>
    match Json.lookup k fields with
    | some v => .ok v
    | none => .error (.py ("KeyError: " ++ k))
  | _ => .error (.py ("TypeError: string indices on non-dict value, key " ++ k))

/-- Python `value.get(key, default)`: only dicts have `.get`; the default
is returned only when the key is absent (a key bound to `null` returns
`null`, not the default). -/
def pyGetDefault (j : Json) (k : String) (d : Json) : Except Err Json :=
  match j with
  | .obj fields => .ok ((Json.lookup k fields).getD d)
  | _ => .error (.py "AttributeError: no attribute get")

/-- Python `value.get(key)` with no default (returns `None` when the key
is absent); `AttributeError` on non-dict values, in particular on
`None`. -/
def pyGetOrNone (j : Json) (k : String) : Except Err Json :=
  match j with
  | .obj fields => .ok ((Json.lookup k fields).getD .null)
  | _ => .error (.py "AttributeError: no attribute get")

/-- Python iteration over a JSON value: lists yield items, strings yield
one-character strings, dicts yield their keys; other values raise
`TypeError`. -/
def pyIterate (j : Json) : Except Err (List Json) :=
  match j with
  | .arr items => .ok items
  | .str s => .ok (s.data.map (fun c => .str (String.singleton c)))
  | .obj fields => .ok (fields.map (fun kv => .str kv.1))
  | _ => .error (.py "TypeError: value is not iterable")

/-- Python `==` between an arbitrary value and a string literal: `False`
(not an error) when the value is not a string. -/
def jsonEqStr (j : Json) (s : String) : Bool :=
  match j with
  | .str t => t = s
  | _ => false

/-- Python `s.replace(old, new)` for one-character arguments. -/
def pyReplaceChar (s : String) (c r : Char) : String :=
  ⟨s.data.map (fun x => if x = c then r else x)⟩

/-- `entry['flavor_text'].replace('\n', ' ').replace('\f', ' ')`: each
newline and each form feed becomes a single space. -/
def cleanText (s : String) : String :=
  pyReplaceChar (pyReplaceChar s '\n' ' ') (Char.ofNat 12) ' '

/-- The generator
`next((entry['flavor_text'].replace(...) for entry in entries
      if entry['language']['name'] == 'en'), "Description unavailable.")`:
lazily scan for the first entry whose language tag is `en`; entries after
the first match are never touched; a malformed entry reached before the
first match raises. -/
def findEnglishDesc : List Json → Except Err String
  | [] => .ok "Description unavailable."
  | entry :: rest =>
    match pyGetItem entry "language" with
    | .error e => .error e
    | .ok lang =>
      match pyGetItem lang "name" with
      | .error e => .error e
      | .ok lname =>
        if jsonEqStr lname "en" then
          match pyGetItem entry "flavor_text" with
          | .error e => .error e
          | .ok (.str s) => .ok (cleanText s)
          | .ok _ => .error (.py "AttributeError: no attribute replace")
        else findEnglishDesc rest

/-- `app/models.py` `PokemonSpeciesData`: the validated internal record. -/
structure PokemonSpeciesData where
  name : String
  description : String
  habitat : Option String
  is_legendary : Bool
deriving Repr, DecidableEq

/-- `app/models.py` `PokemonResponse`: the public response shape. -/
structure PokemonResponse where
  name : String
  description : String
  habitat : Option String
  is_legendary : Bool
deriving Repr, DecidableEq

/-- `app/models.py` `TranslatedPokemonResponse(PokemonResponse): pass`. -/
abbrev TranslatedPokemonResponse := PokemonResponse

/-- The outcome of one adapter call: result, final cache state, and the
upstream requests issued (normalized lookup keys, in order). -/
structure FetchOut (α : Type) where
  result : Except Err α
  cache : Cache
  requests : List String
deriving Repr, DecidableEq

/-- The namespaced cache key `f"pokemon:species:{normalized_name}"`. -/
def speciesCacheKey (pokemon_name : String) : String :=
  "pokemon:species:" ++ pyLower pokemon_name

/-- `PokeAPIClient._fetch_species_data`: lower-case the name, try the
cache, otherwise issue one upstream request; cache (the serialized raw
payload) only on a 2xx response with a decodable body; map upstream 404
to `HTTPException(404, ...)`, any other `HTTPStatusError` to
`APIClientError` 503, and `RequestError` to `APIClientError` 503. -/
def fetchSpeciesData (up : String → HttpResp) (cache : Cache)
    (pokemon_name : String) : FetchOut Json :=
  let normalized_name := pyLower pokemon_name
  let cache_key := "pokemon:species:" ++ normalized_name
  match redisHit cache cache_key with
  | some cached_data =>
    match jLoads cached_data with
    | some data => ⟨.ok data, cache, []⟩
    | none => ⟨.error (.py "json.JSONDecodeError"), cache, []⟩
  | none =>
    match up normalized_name with
    | .ok data => ⟨.ok data, cacheSet cache cache_key (jDumps data), [normalized_name]⟩
    | .badJson => ⟨.error (.py "json.JSONDecodeError"), cache, [normalized_name]⟩
    | .status code =>
      if code = 404 then
        ⟨.error (.http 404 ("Pokemon '" ++ pokemon_name ++ "' not found.")),
          cache, [normalized_name]⟩
      else
        ⟨.error (.http 503
            ("External API Error: PokeAPI failed with status " ++ toString code)),
          cache, [normalized_name]⟩
    | .transport msg =>
      ⟨.error (.http 503 ("External API Error: PokeAPI network error: " ++ msg)),
        cache, [normalized_name]⟩

/-- The pure data-extraction part of `PokeAPIClient.get_pokemon_species`:
the description generator runs first, then the constructor arguments are
evaluated left to right (`data['name']`, then
`data.get('habitat', {}).get('name')`, then `data['is_legendary']`); any
exception raised there propagates.  The `PokemonSpeciesData(...)` call
itself then always raises `ValidationError`: `description` is declared
with `Field(alias="flavor_text")` and `populate_by_name` is never set, so
the `description=` keyword cannot populate the aliased field and pydantic
reports the `flavor_text` field as missing (the repo's own tests construct
the model by field name the same way). -/
def parseSpecies (data : Json) : Except Err PokemonSpeciesData :=
  match pyGetDefault data "flavor_text_entries" (.arr []) with
  | .error e => .error e
  | .ok entriesJ =>
    match pyIterate entriesJ with
    | .error e => .error e
    | .ok entries =>
      match findEnglishDesc entries with
      | .error e => .error e
      | .ok _english_description =>
        match pyGetItem data "name" with
        | .error e => .error e
        | .ok _nameArg =>
          match pyGetDefault data "habitat" (.obj []) with
          | .error e => .error e
          | .ok habObj =>
            match pyGetOrNone habObj "name" with
            | .error e => .error e
            | .ok _habArg =>
              match pyGetItem data "is_legendary" with
              | .error e => .error e
              | .ok _legArg =>
                .error (.py "ValidationError: flavor_text Field required")

/-- `PokeAPIClient.get_pokemon_species`: fetch (with caching), then
extract and validate. -/
def get_pokemon_species (up : String → HttpResp) (cache : Cache)
    (name : String) : FetchOut PokemonSpeciesData :=
  match fetchSpeciesData up cache name with
  | ⟨.error e, c, r⟩ => ⟨.error e, c, r⟩
  | ⟨.ok data, c, r⟩ => ⟨parseSpecies data, c, r⟩

/-- The namespaced translation cache key
`f"translation:{translation_style}:{hash(text)}"`; Python's built-in
string hash is process-seeded and is therefore a parameter. -/
def transCacheKey (hashF : String → Int) (translation_style text : String) :
    String :=
  "translation:" ++ translation_style ++ ":" ++ toString (hashF text)

/-- `data["contents"]["translated"]`. -/
def extractTranslated (data : Json) : Except Err Json :=
  match pyGetItem data "contents" with
  | .error e => .error e
  | .ok contents => pyGetItem contents "translated"

/-- `TranslationClient._translate_network_call`: POST to the style path;
`HTTPStatusError` maps to `APIClientError` 503 whose detail appends
`Rate limit exceeded.` for a 429; `RequestError` maps to 503; any other
exception in the block (JSON decoding, missing nested fields) maps to the
503 `unexpected response format` error.  (A present but non-string
`translated` value would be passed through by Python; no claim exercises
that shape and it is marked as unmodelled.) -/
def translateNetworkCall (up : String → String → HttpResp)
    (text translation_style : String) : Except Err String :=
  match up translation_style text with
  | .ok data =>
    match extractTranslated data with
    | .ok (.str translated_text) => .ok translated_text
    | .ok _ => .error (.py "unmodelled: non-string translated value")
    | .error _ =>
      .error (.http 503
        "External API Error: Translation API returned an unexpected response format.")
  | .badJson =>
    .error (.http 503
      "External API Error: Translation API returned an unexpected response format.")
  | .status code =>
    .error (.http 503
      ("External API Error: Translation API failed with status " ++
        toString code ++ ". " ++ (if code = 429 then "Rate limit exceeded." else "")))
  | .transport msg =>
    .error (.http 503 ("External API Error: Translation API network error: " ++ msg))

/-- The outcome of one translation-adapter call: result, final cache
state, and the `(style, text)` pairs POSTed upstream, in order. -/
structure TransOut where
  result : Except Err String
  cache : Cache
  requests : List (String × String)
deriving Repr, DecidableEq

/-- `TranslationClient.translate`: hash-based cache key, cache probe with
Python truthiness, network call on a miss, `setex` only after the network
call returned successfully. -/
def TranslationClient.translate (up : String → String → HttpResp)
    (hashF : String → Int) (cache : Cache) (text translation_style : String) :
    TransOut :=
  let cache_key := "translation:" ++ translation_style ++ ":" ++ toString (hashF text)
  match redisHit cache cache_key with
  | some cached_translation => ⟨.ok cached_translation, cache, []⟩
  | none =>
    match translateNetworkCall up text translation_style with
    | .error e => ⟨.error e, cache, [(translation_style, text)]⟩
    | .ok result => ⟨.ok result, cacheSet cache cache_key result,
        [(translation_style, text)]⟩

/-- The style-selection rule inlined in
`PokemonService.get_translated_info`: legendary OR habitat == "cave"
selects `yoda`, otherwise `shakespeare`. -/
def translationStyle (species_data : PokemonSpeciesData) : String :=
  let is_cave_habitat := species_data.habitat == some "cave"
  if species_data.is_legendary || is_cave_habitat then "yoda" else "shakespeare"

/-- `PokemonService.get_basic_info`: fetch and map the internal record
verbatim onto the public response model. -/
def get_basic_info (up : String → HttpResp) (cache : Cache) (name : String) :
    FetchOut PokemonResponse :=
  match get_pokemon_species up cache name with
  | ⟨.error e, c, r⟩ => ⟨.error e, c, r⟩
  | ⟨.ok sd, c, r⟩ =>
    ⟨.ok ⟨sd.name, sd.description, sd.habitat, sd.is_legendary⟩, c, r⟩

/-- The outcome of `get_translated_info`: result, both final cache
states, and both upstream request logs. -/
structure ServiceOut where
  result : Except Err TranslatedPokemonResponse
  pokeCache : Cache
  transCache : Cache
  pokeRequests : List String
  transRequests : List (String × String)
deriving Repr, DecidableEq

/-- `PokemonService.get_translated_info`: fetch the species, select the
style, translate the description, and assemble the response; an error
from either client propagates unchanged. -/
def get_translated_info (pokeUp : String → HttpResp)
    (transUp : String → String → HttpResp) (hashF : String → Int)
    (pokeCache transCache : Cache) (name : String) : ServiceOut :=
  match get_pokemon_species pokeUp pokeCache name with
  | ⟨.error e, pc, pr⟩ => ⟨.error e, pc, transCache, pr, []⟩
  | ⟨.ok species_data, pc, pr⟩ =>
    let translation_style := translationStyle species_data
    match TranslationClient.translate transUp hashF transCache
        species_data.description translation_style with
    | ⟨.error e, tc, tr⟩ => ⟨.error e, pc, tc, pr, tr⟩
    | ⟨.ok translated_description, tc, tr⟩ =>
      ⟨.ok ⟨species_data.name, translated_description, species_data.habitat,
          species_data.is_legendary⟩, pc, tc, pr, tr⟩

/-- `pyGetItem` fails only with a Python-level error, never an HTTP one. -/
theorem pyGetItem_error (j : Json) (k : String) (e : Err)
    (h : pyGetItem j k = .error e) : ∃ m, e = .py m := by
  cases j with
  | obj fields =>
    simp only [pyGetItem] at h
    cases hkv : Json.lookup k fields with
    | some v => rw [hkv] at h; exact Except.noConfusion h
    | none => rw [hkv] at h; exact ⟨_, (Except.error.inj h).symm⟩
  | null => exact ⟨_, (Except.error.inj h).symm⟩
  | bool b => exact ⟨_, (Except.error.inj h).symm⟩
  | str s => exact ⟨_, (Except.error.inj h).symm⟩
  | arr xs => exact ⟨_, (Except.error.inj h).symm⟩

/-- `pyGetDefault` fails only with a Python-level error. -/
theorem pyGetDefault_error (j : Json) (k : String) (d : Json) (e : Err)
    (h : pyGetDefault j k d = .error e) : ∃ m, e = .py m := by
  cases j with
  | obj fields => exact Except.noConfusion h
  | null => exact ⟨_, (Except.error.inj h).symm⟩
  | bool b => exact ⟨_, (Except.error.inj h).symm⟩
  | str s => exact ⟨_, (Except.error.inj h).symm⟩
  | arr xs => exact ⟨_, (Except.error.inj h).symm⟩

/-- `pyGetOrNone` fails only with a Python-level error. -/
theorem pyGetOrNone_error (j : Json) (k : String) (e : Err)
    (h : pyGetOrNone j k = .error e) : ∃ m, e = .py m := by
  cases j with
  | obj fields => exact Except.noConfusion h
  | null => exact ⟨_, (Except.error.inj h).symm⟩
  | bool b => exact ⟨_, (Except.error.inj h).symm⟩
  | str s => exact ⟨_, (Except.error.inj h).symm⟩
  | arr xs => exact ⟨_, (Except.error.inj h).symm⟩

/-- `pyIterate` fails only with a Python-level error. -/
theorem pyIterate_error (j : Json) (e : Err)
    (h : pyIterate j = .error e) : ∃ m, e = .py m := by
  cases j with
  | obj fields => exact Except.noConfusion h
  | arr xs => exact Except.noConfusion h
  | str s => exact Except.noConfusion h
  | null => exact ⟨_, (Except.error.inj h).symm⟩
  | bool b => exact ⟨_, (Except.error.inj h).symm⟩

/-- The description generator fails only with a Python-level error. -/
theorem findEnglishDesc_error (entries : List Json) (e : Err)
    (h : findEnglishDesc entries = .error e) : ∃ m, e = .py m := by
  induction entries with
  | nil => exact Except.noConfusion h
  | cons entry rest ih =>
    simp only [findEnglishDesc] at h
    cases h1 : pyGetItem entry "language" with
    | error e1 =>
      rw [h1] at h; (try simp only [] at h)
      obtain ⟨m, hm⟩ := pyGetItem_error _ _ _ h1
      exact ⟨m, by rw [← (Except.error.inj h), hm]⟩
    | ok lang =>
      rw [h1] at h; (try simp only [] at h)
      cases h2 : pyGetItem lang "name" with
      | error e2 =>
        rw [h2] at h; (try simp only [] at h)
        obtain ⟨m, hm⟩ := pyGetItem_error _ _ _ h2
        exact ⟨m, by rw [← (Except.error.inj h), hm]⟩
      | ok lname =>
        rw [h2] at h; (try simp only [] at h)
        by_cases h3 : jsonEqStr lname "en"
        · rw [if_pos h3] at h
          cases h4 : pyGetItem entry "flavor_text" with
          | error e4 =>
            rw [h4] at h
            obtain ⟨m, hm⟩ := pyGetItem_error _ _ _ h4
            exact ⟨m, by rw [← (Except.error.inj h), hm]⟩
          | ok v =>
            rw [h4] at h; (try simp only [] at h)
            cases v with
            | str s => exact Except.noConfusion h
            | null => exact ⟨_, (Except.error.inj h).symm⟩
            | bool b => exact ⟨_, (Except.error.inj h).symm⟩
            | arr xs => exact ⟨_, (Except.error.inj h).symm⟩
            | obj fields => exact ⟨_, (Except.error.inj h).symm⟩
        · rw [if_neg h3] at h
          exact ih h

/-- `parseSpecies` fails only with a Python-level error (`KeyError`,
`AttributeError`, `TypeError` or a validation error) — never with an
HTTP-taxonomy error. -/
theorem parseSpecies_error_py (data : Json) (e : Err)
    (h : parseSpecies data = .error e) : ∃ m, e = .py m := by
  unfold parseSpecies at h
  cases h1 : pyGetDefault data "flavor_text_entries" (.arr []) with
  | error e1 =>
    rw [h1] at h; (try simp only [] at h)
    obtain ⟨m, hm⟩ := pyGetDefault_error _ _ _ _ h1
    exact ⟨m, by rw [← (Except.error.inj h), hm]⟩
  | ok entriesJ =>
    rw [h1] at h; (try simp only [] at h)
    cases h2 : pyIterate entriesJ with
    | error e2 =>
      rw [h2] at h; (try simp only [] at h)
      obtain ⟨m, hm⟩ := pyIterate_error _ _ h2
      exact ⟨m, by rw [← (Except.error.inj h), hm]⟩
    | ok entries =>
      rw [h2] at h; (try simp only [] at h)
      cases h3 : findEnglishDesc entries with
      | error e3 =>
        rw [h3] at h; (try simp only [] at h)
        obtain ⟨m, hm⟩ := findEnglishDesc_error _ _ h3
        exact ⟨m, by rw [← (Except.error.inj h), hm]⟩
      | ok desc =>
        rw [h3] at h; (try simp only [] at h)
        cases h4 : pyGetItem data "name" with
        | error e4 =>
          rw [h4] at h; (try simp only [] at h)
          obtain ⟨m, hm⟩ := pyGetItem_error _ _ _ h4
          exact ⟨m, by rw [← (Except.error.inj h), hm]⟩
        | ok nameArg =>
          rw [h4] at h; (try simp only [] at h)
          cases h5 : pyGetDefault data "habitat" (.obj []) with
          | error e5 =>
            rw [h5] at h; (try simp only [] at h)
            obtain ⟨m, hm⟩ := pyGetDefault_error _ _ _ _ h5
            exact ⟨m, by rw [← (Except.error.inj h), hm]⟩
          | ok habObj =>
            rw [h5] at h; (try simp only [] at h)
            cases h6 : pyGetOrNone habObj "name" with
            | error e6 =>
              rw [h6] at h; (try simp only [] at h)
              obtain ⟨m, hm⟩ := pyGetOrNone_error _ _ _ h6
              exact ⟨m, by rw [← (Except.error.inj h), hm]⟩
            | ok habArg =>
              rw [h6] at h; (try simp only [] at h)
              cases h7 : pyGetItem data "is_legendary" with
              | error e7 =>
                rw [h7] at h; (try simp only [] at h)
                obtain ⟨m, hm⟩ := pyGetItem_error _ _ _ h7
                exact ⟨m, by rw [← (Except.error.inj h), hm]⟩
              | ok legArg =>
                rw [h7] at h; (try simp only [] at h)
                exact ⟨_, (Except.error.inj h).symm⟩

/-- If the fetch layer fails with an HTTP-taxonomy error (404/503), the
call was a cache miss and the cache is left unchanged. -/
theorem fetchSpeciesData_http_error (up : String → HttpResp) (cache : Cache)
    (name : String) (s : Nat) (d : String)
    (h : (fetchSpeciesData up cache name).result = .error (.http s d)) :
    (fetchSpeciesData up cache name).cache = cache ∧
    redisHit cache (speciesCacheKey name) = none := by
  cases hh : redisHit cache ("pokemon:species:" ++ pyLower name) with
  | some cached =>
    cases hl : jLoads cached with
    | some data => simp [fetchSpeciesData, hh, hl] at h
    | none => simp [fetchSpeciesData, hh, hl] at h
  | none =>
    refine ⟨?_, hh⟩
    cases hu : up (pyLower name) with
    | ok data => simp [fetchSpeciesData, hh, hu] at h
    | badJson => simp [fetchSpeciesData, hh, hu] at h
    | status code =>
      simp only [fetchSpeciesData, hh, hu]
      split <;> rfl
    | transport msg => simp [fetchSpeciesData, hh, hu]

/-- A cache miss always issues exactly one upstream request, for the
lower-cased name. -/
theorem fetchSpeciesData_miss_requests (up : String → HttpResp)
    (cache : Cache) (name : String)
    (h : redisHit cache (speciesCacheKey name) = none) :
    (fetchSpeciesData up cache name).requests = [pyLower name] := by
  have hh : redisHit cache ("pokemon:species:" ++ pyLower name) = none := h
  cases hu : up (pyLower name) with
  | ok data => simp [fetchSpeciesData, hh, hu]
  | badJson => simp [fetchSpeciesData, hh, hu]
  | status code =>
    simp only [fetchSpeciesData, hh, hu]
    split <;> rfl
  | transport msg => simp [fetchSpeciesData, hh, hu]

/-- `get_pokemon_species` passes the fetch layer's cache state through. -/
theorem get_pokemon_species_cache (up : String → HttpResp) (cache : Cache)
    (name : String) :
    (get_pokemon_species up cache name).cache =
      (fetchSpeciesData up cache name).cache := by
  cases hf : fetchSpeciesData up cache name with
  | mk res c r => cases res <;> simp [get_pokemon_species, hf]

/-- `get_pokemon_species` passes the fetch layer's request log through. -/
theorem get_pokemon_species_requests (up : String → HttpResp) (cache : Cache)
    (name : String) :
    (get_pokemon_species up cache name).requests =
      (fetchSpeciesData up cache name).requests := by
  cases hf : fetchSpeciesData up cache name with
  | mk res c r => cases res <;> simp [get_pokemon_species, hf]

/-- If the translation adapter fails, the call was a cache miss and the
cache is left unchanged. -/
theorem translate_error_state (up : String → String → HttpResp)
    (hashF : String → Int) (cache : Cache) (text style : String) (e : Err)
    (h : (TranslationClient.translate up hashF cache text style).result = .error e) :
    (TranslationClient.translate up hashF cache text style).cache = cache ∧
    redisHit cache (transCacheKey hashF style text) = none := by
  cases hh : redisHit cache
      ("translation:" ++ style ++ ":" ++ toString (hashF text)) with
  | some cached => simp [TranslationClient.translate, hh] at h
  | none =>
    refine ⟨?_, hh⟩
    cases hn : translateNetworkCall up text style with
    | error e2 => simp [TranslationClient.translate, hh, hn]
    | ok result => simp [TranslationClient.translate, hh, hn] at h ⊢

/-- A translation cache miss always issues exactly one upstream POST, for
the `(style, text)` pair. -/
theorem translate_miss_requests (up : String → String → HttpResp)
    (hashF : String → Int) (cache : Cache) (text style : String)
    (h : redisHit cache (transCacheKey hashF style text) = none) :
    (TranslationClient.translate up hashF cache text style).requests =
      [(style, text)] := by
  have hh : redisHit cache
      ("translation:" ++ style ++ ":" ++ toString (hashF text)) = none := h
  cases hn : translateNetworkCall up text style with
  | error e2 => simp [TranslationClient.translate, hh, hn]
  | ok result => simp [TranslationClient.translate, hh, hn]

/-- C3: the style selection rule is a pure total function over the record:
legendary records select yoda (StyleA) regardless of habitat; non-legendary
records with habitat "cave" select yoda; every other record, including
records with an absent habitat, selects shakespeare (StyleB). -/
theorem claim_C3 (record : PokemonSpeciesData) :
    (record.is_legendary = true → translationStyle record = "yoda") ∧
    (record.habitat = some "cave" → translationStyle record = "yoda") ∧
    (record.is_legendary = false → record.habitat ≠ some "cave" →
      translationStyle record = "shakespeare") := by
  obtain ⟨nm, desc, hab, leg⟩ := record
  refine ⟨fun h1 => ?_, fun h1 => ?_, fun h1 h2 => ?_⟩
  · simp_all [translationStyle]
  · simp_all [translationStyle]
  · simp_all [translationStyle]

/-- Witness for C3 at concrete records: a legendary record with a
non-cave habitat, a non-legendary cave record, and a non-legendary record
with an absent habitat. -/
theorem claim_C3_witness :
    translationStyle ⟨"mewtwo", "d", some "rare", true⟩ = "yoda" ∧
    translationStyle ⟨"zubat", "d", some "cave", false⟩ = "yoda" ∧
    translationStyle ⟨"pikachu", "d", none, false⟩ = "shakespeare" :=
  ⟨(claim_C3 _).1 rfl, (claim_C3 _).2.1 rfl, (claim_C3 _).2.2 rfl (by decide)⟩

/-- A payload whose habitat key is absent (C2). -/
def c2AbsentPayload : Json := .obj
  [("name", .str "zubat"),
   ("is_legendary", .bool false),
   ("flavor_text_entries", .arr
     [.obj [("flavor_text", .str "Forms colonies in caves."),
            ("language", .obj [("name", .str "en")])]])]

/-- A payload whose habitat key is present but bound to `null` (C2): this
is what the upstream actually returns for species with an unknown
habitat. -/
def c2NullPayload : Json := .obj
  [("name", .str "zubat"),
   ("is_legendary", .bool false),
   ("habitat", .null),
   ("flavor_text_entries", .arr
     [.obj [("flavor_text", .str "Forms colonies in caves."),
            ("language", .obj [("name", .str "en")])]])]

/-- C2, evaluated (code bug): the habitat expression is total only for the
absent key — `data.get('habitat', {})` yields the `{}` default and
`.get('name')` yields `None` — while a habitat bound to `null` raises
`AttributeError` (`None.get('name')`: the default covers only the absent
key); and in neither case does `get_pokemon_species` return a record with
an absent habitat, because the subsequent `PokemonSpeciesData(...)`
construction always raises the alias `ValidationError`.  The claim states
the evident intent of the defensive default and of `habitat: str | None`;
the code fails it on both counts. -/
theorem claim_C2_eval :
    (pyGetDefault c2AbsentPayload "habitat" (.obj []) = .ok (.obj [])) ∧
    (pyGetOrNone (.obj []) "name" = .ok .null) ∧
    (pyGetDefault c2NullPayload "habitat" (.obj []) = .ok .null) ∧
    (pyGetOrNone .null "name" =
      .error (.py "AttributeError: no attribute get")) ∧
    ((get_pokemon_species (fun _ => .ok c2NullPayload) [] "zubat").result =
      .error (.py "AttributeError: no attribute get")) ∧
    ((get_pokemon_species (fun _ => .ok c2AbsentPayload) [] "zubat").result =
      .error (.py "ValidationError: flavor_text Field required")) :=
  ⟨by decide, by decide, by decide, by decide, by decide, by decide⟩

/-- C8: on a cache miss, an upstream 404 yields the NotFound error (with
the original-cased name echoed in the detail), any other 4xx/5xx status
yields the ServiceUnavailable error, and a transport failure yields the
ServiceUnavailable error; in every case the cache is unchanged and exactly
one upstream request was issued. -/
theorem claim_C8 (up : String → HttpResp) (cache : Cache) (name : String)
    (hmiss : redisHit cache (speciesCacheKey name) = none) :
    (up (pyLower name) = .status 404 →
      get_pokemon_species up cache name =
        ⟨.error (.http 404 ("Pokemon '" ++ name ++ "' not found.")), cache,
          [pyLower name]⟩) ∧
    (∀ code, 400 ≤ code → code ≠ 404 → up (pyLower name) = .status code →
      get_pokemon_species up cache name =
        ⟨.error (.http 503 ("External API Error: PokeAPI failed with status " ++
            toString code)), cache, [pyLower name]⟩) ∧
    (∀ msg, up (pyLower name) = .transport msg →
      get_pokemon_species up cache name =
        ⟨.error (.http 503 ("External API Error: PokeAPI network error: " ++ msg)),
          cache, [pyLower name]⟩) := by
  have hh : redisHit cache ("pokemon:species:" ++ pyLower name) = none := hmiss
  refine ⟨fun h404 => ?_, fun code hge hne hcode => ?_, fun msg hmsg => ?_⟩
  · simp [get_pokemon_species, fetchSpeciesData, hh, h404]
  · simp [get_pokemon_species, fetchSpeciesData, hh, hcode, hne]
  · simp [get_pokemon_species, fetchSpeciesData, hh, hmsg]

/-- Witness for C8: a concrete 404 run. -/
theorem claim_C8_witness :
    get_pokemon_species (fun _ => .status 404) [] "Missingno" =
      ⟨.error (.http 404 "Pokemon 'Missingno' not found."), [], ["missingno"]⟩ :=
  (claim_C8 (fun _ => .status 404) [] "Missingno" (by decide)).1 rfl

/-- C7: on a translation cache miss, a 429 yields the ServiceUnavailable
error whose detail carries the rate-limit marker (shown explicitly: the
lower-cased detail contains the substring "rate limit exceeded"); any
4xx/5xx status yields a ServiceUnavailable error; a transport failure
yields a ServiceUnavailable error; a 2xx body missing the nested
`contents`/`translated` field yields the ServiceUnavailable
"unexpected response format" error; in every case the cache is
unchanged. -/
theorem claim_C7 (up : String → String → HttpResp) (hashF : String → Int)
    (cache : Cache) (text style : String)
    (hmiss : redisHit cache (transCacheKey hashF style text) = none) :
    (up style text = .status 429 →
      TranslationClient.translate up hashF cache text style =
        ⟨.error (.http 503
          "External API Error: Translation API failed with status 429. Rate limit exceeded."),
          cache, [(style, text)]⟩ ∧
      pyLower
          "External API Error: Translation API failed with status 429. Rate limit exceeded." =
        "external api error: translation api failed with status 429. " ++
          "rate limit exceeded" ++ ".") ∧
    (∀ code, 400 ≤ code → up style text = .status code →
      TranslationClient.translate up hashF cache text style =
        ⟨.error (.http 503
          ("External API Error: Translation API failed with status " ++
            toString code ++ ". " ++
            (if code = 429 then "Rate limit exceeded." else ""))),
          cache, [(style, text)]⟩) ∧
    (∀ msg, up style text = .transport msg →
      TranslationClient.translate up hashF cache text style =
        ⟨.error (.http 503
          ("External API Error: Translation API network error: " ++ msg)),
          cache, [(style, text)]⟩) ∧
    (∀ body e, up style text = .ok body → extractTranslated body = .error e →
      TranslationClient.translate up hashF cache text style =
        ⟨.error (.http 503
          "External API Error: Translation API returned an unexpected response format."),
          cache, [(style, text)]⟩) := by
  have hh : redisHit cache
      ("translation:" ++ style ++ ":" ++ toString (hashF text)) = none := hmiss
  refine ⟨fun h429 => ⟨?_, by decide⟩, fun code hge hcode => ?_,
    fun msg hmsg => ?_, fun body e hok hex => ?_⟩
  · simp [TranslationClient.translate, translateNetworkCall, hh, h429]
    decide
  · simp [TranslationClient.translate, translateNetworkCall, hh, hcode]
  · simp [TranslationClient.translate, translateNetworkCall, hh, hmsg]
  · simp [TranslationClient.translate, translateNetworkCall, hh, hok, hex]

/-- Witness for C7: a concrete 429 run. -/
theorem claim_C7_witness :
    TranslationClient.translate (fun _ _ => .status 429) (fun _ => 0) []
        "abc" "yoda" =
      ⟨.error (.http 503
        "External API Error: Translation API failed with status 429. Rate limit exceeded."),
        [], [("yoda", "abc")]⟩ :=
  ((claim_C7 (fun _ _ => .status 429) (fun _ => 0) [] "abc" "yoda"
    (by decide)).1 rfl).1

/-- The upstream oracle for the C4 witness (end-to-end scenario 2 of the
spec: legendary cave-dweller, yoda transform). -/
def c4PokeUp : String → HttpResp := fun _ => .ok (.obj
  [("name", .str "mewtwo"),
   ("is_legendary", .bool true),
   ("habitat", .obj [("name", .str "cave")]),
   ("flavor_text_entries", .arr
     [.obj [("flavor_text", .str "It was created by a scientist."),
            ("language", .obj [("name", .str "en")])]])])

/-- The transform oracle for the C4 witness. -/
def c4TransUp : String → String → HttpResp := fun _ _ =>
  .ok (.obj [("contents", .obj
    [("translated", .str "Created by scientist, it was.")])])

/-- C4, evaluated (code bug): an error from the data-source adapter
aborts `get_translated_info` and propagates unchanged with no transform
request (the satisfiable half of the claim, proved in general); but the
claimed success path is unreachable — even with a well-formed payload and
a working transform source, the fetch ends in the alias
`ValidationError`, the transform adapter is never consulted, and no
PublicRecord is produced. -/
theorem claim_C4_eval :
    ((get_translated_info c4PokeUp c4TransUp (fun _ => 7) [] [] "mewtwo").result =
      .error (.py "ValidationError: flavor_text Field required")) ∧
    ((get_translated_info c4PokeUp c4TransUp (fun _ => 7) [] []
        "mewtwo").transRequests = []) ∧
    (∀ (pokeUp : String → HttpResp) (transUp : String → String → HttpResp)
        (hashF : String → Int) (pc tc : Cache) (name : String) (e : Err)
        (pc2 : Cache) (pr : List String),
      get_pokemon_species pokeUp pc name = ⟨.error e, pc2, pr⟩ →
      get_translated_info pokeUp transUp hashF pc tc name =
        ⟨.error e, pc2, tc, pr, []⟩) := by
  refine ⟨by decide, by decide, ?_⟩
  intro pokeUp transUp hashF pc tc name e pc2 pr hp
  simp [get_translated_info, hp]

/-- Witness for the propagation part of C4 at a concrete 404 run. -/
theorem claim_C4_witness :
    get_translated_info (fun _ => .status 404) c4TransUp (fun _ => 7) [] []
        "pikachu" =
      ⟨.error (.http 404 "Pokemon 'pikachu' not found."), [], [],
        ["pikachu"], []⟩ := by
  have hp : get_pokemon_species (fun _ => .status 404) [] "pikachu" =
      ⟨.error (.http 404 "Pokemon 'pikachu' not found."), [], ["pikachu"]⟩ := by
    decide
  exact claim_C4_eval.2.2 (fun _ => .status 404) c4TransUp (fun _ => 7) [] []
    "pikachu" _ _ _ hp

/-- A well-formed per-language text entry, as the upstream contract
describes them (a language tag and a text body). -/
structure FlavorEntry where
  flavor_text : String
  language : String
deriving Repr, DecidableEq

/-- The JSON shape of a well-formed entry. -/
def FlavorEntry.toJson (e : FlavorEntry) : Json :=
  .obj [("flavor_text", .str e.flavor_text),
        ("language", .obj [("name", .str e.language)])]

/-- The description generator over well-formed entries: exactly the first
entry with language tag `en`, cleaned; the fixed placeholder when there is
none. -/
theorem findEnglishDesc_entries (es : List FlavorEntry) :
    findEnglishDesc (es.map FlavorEntry.toJson) =
      .ok (match es.find? (fun e => e.language == "en") with
           | some e => cleanText e.flavor_text
           | none => "Description unavailable.") := by
  induction es with
  | nil => simp [findEnglishDesc]
  | cons e es ih =>
    by_cases he : e.language = "en"
    · simp +decide [findEnglishDesc, FlavorEntry.toJson, pyGetItem,
        Json.lookup, jsonEqStr, he, List.find?]
    · have hb : (e.language == "en") = false := by simpa using he
      simp +decide [findEnglishDesc, FlavorEntry.toJson, pyGetItem,
        Json.lookup, jsonEqStr, he, hb, List.find?, ih]

/-- A well-formed species payload: `name`, an optional `habitat` object,
`is_legendary`, and a list of well-formed text entries. -/
def mkSpeciesPayload (nm : String) (leg : Bool) (hab : Option String)
    (entries : List FlavorEntry) : Json :=
  .obj ([("name", .str nm)] ++
    (match hab with
     | some h => [("habitat", .obj [("name", .str h)])]
     | none => []) ++
    [("is_legendary", .bool leg),
     ("flavor_text_entries", .arr (entries.map FlavorEntry.toJson))])

/-- C6, evaluated (code bug): the extraction expression itself computes
exactly the claimed description — the first entry whose language tag is
`en`, every newline and form feed replaced by a single space, and the
fixed placeholder "Description unavailable." when no English entry exists
— but `get_pokemon_species` never returns an EntityRecord carrying it:
after the description is computed, the record construction raises the
alias `ValidationError` (shown at the spec's scenario-4 payload, with
French, English and Spanish entries in that order), contradicting the
repo's own extraction test. -/
theorem claim_C6_eval :
    (∀ es : List FlavorEntry,
      findEnglishDesc (es.map FlavorEntry.toJson) =
        .ok (match es.find? (fun e => e.language == "en") with
             | some e => cleanText e.flavor_text
             | none => "Description unavailable.")) ∧
    (∀ s : String, (cleanText s).data =
      s.data.map (fun c => if c = '\n' ∨ c = Char.ofNat 12 then ' ' else c)) ∧
    ((get_pokemon_species
        (fun _ => .ok (mkSpeciesPayload "mewtwo" true (some "rare")
          [⟨"Ceci est un texte.", "fr"⟩,
           ⟨"It was created by a scientist.", "en"⟩,
           ⟨"Esto es un texto.", "es"⟩])) [] "mewtwo").result =
      .error (.py "ValidationError: flavor_text Field required")) := by
  refine ⟨findEnglishDesc_entries, ?_, by decide⟩
  intro s
  simp only [cleanText, pyReplaceChar, List.map_map]
  apply List.map_congr_left
  intro a _
  by_cases h1 : a = '\n'
  · subst h1; simp +decide [Function.comp]
  · by_cases h2 : a = Char.ofNat 12
    · subst h2; simp +decide [Function.comp]
    · simp [Function.comp, h1, h2]

/-- Result equality up to the detail string of a NotFound error (the 404
detail echoes the caller's original spelling of the name). -/
def sameUpToNotFoundDetail (r1 r2 : Except Err PokemonResponse) : Prop :=
  r1 = r2 ∨ ∃ d1 d2, r1 = .error (.http 404 d1) ∧ r2 = .error (.http 404 d2)

/-- Two names with the same lower-casing drive the fetch layer to the same
outcome, except that a 404 outcome carries each caller's original spelling
in its detail. -/
theorem fetchSpeciesData_lower_congr (up : String → HttpResp) (cache : Cache)
    (n1 n2 : String) (h : pyLower n1 = pyLower n2) :
    fetchSpeciesData up cache n1 = fetchSpeciesData up cache n2 ∨
    (∃ d1 d2 c r,
      fetchSpeciesData up cache n1 = ⟨.error (.http 404 d1), c, r⟩ ∧
      fetchSpeciesData up cache n2 = ⟨.error (.http 404 d2), c, r⟩) := by
  cases hh : redisHit cache ("pokemon:species:" ++ pyLower n2) with
  | some cached =>
    have hh1 : redisHit cache ("pokemon:species:" ++ pyLower n1) = some cached := by
      rw [h]; exact hh
    cases hl : jLoads cached <;>
      simp [fetchSpeciesData, hh1, hh, hl, h]
  | none =>
    have hh1 : redisHit cache ("pokemon:species:" ++ pyLower n1) = none := by
      rw [h]; exact hh
    cases hu : up (pyLower n2) with
    | ok data =>
      have hu1 : up (pyLower n1) = .ok data := by rw [h]; exact hu
      simp [fetchSpeciesData, hh1, hh, hu1, hu, h]
    | badJson =>
      have hu1 : up (pyLower n1) = .badJson := by rw [h]; exact hu
      simp [fetchSpeciesData, hh1, hh, hu1, hu, h]
    | transport msg =>
      have hu1 : up (pyLower n1) = .transport msg := by rw [h]; exact hu
      simp [fetchSpeciesData, hh1, hh, hu1, hu, h]
    | status code =>
      have hu1 : up (pyLower n1) = .status code := by rw [h]; exact hu
      by_cases hc : code = 404
      · subst hc
        refine Or.inr ⟨"Pokemon '" ++ n1 ++ "' not found.",
          "Pokemon '" ++ n2 ++ "' not found.", cache, [pyLower n2], ?_, ?_⟩ <;>
          simp [fetchSpeciesData, hh1, hh, hu1, hu, h]
      · simp [fetchSpeciesData, hh1, hh, hu1, hu, h, hc]

/-- C5, amended: two names equal up to letter case use the same cache key
and the same upstream lookup key, leave identical cache states, issue
identical upstream requests, and produce identical results except that a
NotFound error's detail echoes each caller's original spelling (the code
formats `pokemon_name`, not `normalized_name`, into the 404 message). -/
theorem claim_C5_amended (up : String → HttpResp) (cache : Cache)
    (n1 n2 : String) (h : pyLower n1 = pyLower n2) :
    speciesCacheKey n1 = speciesCacheKey n2 ∧
    (get_basic_info up cache n1).cache = (get_basic_info up cache n2).cache ∧
    (get_basic_info up cache n1).requests =
      (get_basic_info up cache n2).requests ∧
    sameUpToNotFoundDetail (get_basic_info up cache n1).result
      (get_basic_info up cache n2).result := by
  refine ⟨by simp [speciesCacheKey, h], ?_⟩
  rcases fetchSpeciesData_lower_congr up cache n1 n2 h with hfe | ⟨d1, d2, c, r, h1, h2⟩
  · have hg : get_basic_info up cache n1 = get_basic_info up cache n2 := by
      simp only [get_basic_info, get_pokemon_species, hfe]
    rw [hg]
    exact ⟨rfl, rfl, Or.inl rfl⟩
  · have hg1 : get_basic_info up cache n1 = ⟨.error (.http 404 d1), c, r⟩ := by
      simp [get_basic_info, get_pokemon_species, h1]
    have hg2 : get_basic_info up cache n2 = ⟨.error (.http 404 d2), c, r⟩ := by
      simp [get_basic_info, get_pokemon_species, h2]
    rw [hg1, hg2]
    exact ⟨rfl, rfl, Or.inr ⟨d1, d2, rfl, rfl⟩⟩

/-- Counterexample for C5 as stated: with a not-found upstream, the two
case-variant calls produce different results (the 404 details differ),
so the results are not identical. -/
theorem claim_C5_counterexample :
    pyLower "Mewtwo" = pyLower "MEWTWO" ∧
    get_basic_info (fun _ => .status 404) [] "Mewtwo" ≠
      get_basic_info (fun _ => .status 404) [] "MEWTWO" :=
  ⟨by decide, by decide⟩

/-- Witness for the amended C5 at concrete inputs. -/
theorem claim_C5_witness :
    (get_basic_info (fun _ => .status 500) [] "Mewtwo").cache =
      (get_basic_info (fun _ => .status 500) [] "MEWTWO").cache ∧
    sameUpToNotFoundDetail
      (get_basic_info (fun _ => .status 500) [] "Mewtwo").result
      (get_basic_info (fun _ => .status 500) [] "MEWTWO").result :=
  ⟨(claim_C5_amended (fun _ => .status 500) [] "Mewtwo" "MEWTWO" (by decide)).2.1,
   (claim_C5_amended (fun _ => .status 500) [] "Mewtwo" "MEWTWO" (by decide)).2.2.2⟩

/-- Helper for C9/C10: a fresh write is found by the next lookup. -/
theorem cacheGet_set_self (c : Cache) (k v : String) :
    cacheGet (cacheSet c k v) k = some v := by
  simp [cacheGet, cacheSet]

/-- C1, amended: for the data-source adapter, every call that ends in a
NotFound or ServiceUnavailable error (the HTTP taxonomy) leaves the cache
unchanged and a subsequent call for the same key issues a new upstream
request; for the transform adapter the same holds for every error.  (The
claim's further clause about responses that fail to parse into the
expected record shape is refuted by the counterexample: the data-source
adapter caches the raw payload before shape validation.) -/
theorem claim_C1_amended :
    (∀ (up : String → HttpResp) (cache : Cache) (name : String) (s : Nat)
        (d : String),
      (get_pokemon_species up cache name).result = .error (.http s d) →
      (get_pokemon_species up cache name).cache = cache ∧
      ∀ up2, (get_pokemon_species up2 cache name).requests = [pyLower name]) ∧
    (∀ (up : String → String → HttpResp) (hashF : String → Int)
        (cache : Cache) (text style : String) (e : Err),
      (TranslationClient.translate up hashF cache text style).result = .error e →
      (TranslationClient.translate up hashF cache text style).cache = cache ∧
      ∀ up2, (TranslationClient.translate up2 hashF cache text style).requests =
        [(style, text)]) := by
  refine ⟨fun up cache name s d h => ?_, fun up hashF cache text style e h => ?_⟩
  · cases hf : fetchSpeciesData up cache name with
    | mk res c r =>
      cases res with
      | error e0 =>
        have h2 : (get_pokemon_species up cache name).result = .error e0 := by
          simp [get_pokemon_species, hf]
        rw [h2] at h
        have he0 : e0 = .http s d := Except.error.inj h
        subst he0
        have hres : (fetchSpeciesData up cache name).result = .error (.http s d) := by
          rw [hf]
        obtain ⟨hc, hmiss⟩ := fetchSpeciesData_http_error up cache name s d hres
        refine ⟨?_, fun up2 => ?_⟩
        · rw [get_pokemon_species_cache]; exact hc
        · rw [get_pokemon_species_requests]
          exact fetchSpeciesData_miss_requests up2 cache name hmiss
      | ok data =>
        have h2 : (get_pokemon_species up cache name).result = parseSpecies data := by
          simp [get_pokemon_species, hf]
        rw [h2] at h
        obtain ⟨m, hm⟩ := parseSpecies_error_py data _ h
        exact absurd hm (by simp)
  · obtain ⟨hc, hmiss⟩ := translate_error_state up hashF cache text style e h
    exact ⟨hc, fun up2 => translate_miss_requests up2 hashF cache text style hmiss⟩

/-- A well-formed 2xx payload whose habitat is `null`: the shape-parse
fails after the fetch layer has already cached the raw payload (C1). -/
def c1PoisonPayload : Json := .obj
  [("name", .str "deoxys"),
   ("is_legendary", .bool true),
   ("habitat", .null),
   ("flavor_text_entries", .arr
     [.obj [("flavor_text", .str "A mutated virus."),
            ("language", .obj [("name", .str "en")])]])]

set_option maxRecDepth 10000 in
/-- Counterexample for C1 as stated: a call whose 2xx response fails to
parse into the expected record shape nevertheless populates the cache, and
the subsequent call replays the same failure from the cache without
issuing any new upstream request (the sentinel second oracle would return
a 500 if it were consulted). -/
theorem claim_C1_counterexample :
    ((get_pokemon_species (fun _ => .ok c1PoisonPayload) [] "deoxys").result =
      .error (.py "AttributeError: no attribute get")) ∧
    ((get_pokemon_species (fun _ => .ok c1PoisonPayload) [] "deoxys").cache ≠ []) ∧
    (get_pokemon_species (fun _ => .status 500)
        (get_pokemon_species (fun _ => .ok c1PoisonPayload) [] "deoxys").cache
        "deoxys" =
      ⟨.error (.py "AttributeError: no attribute get"),
        (get_pokemon_species (fun _ => .ok c1PoisonPayload) [] "deoxys").cache,
        []⟩) :=
  ⟨by decide, by decide, by decide⟩

/-- Witness for the amended C1 at a concrete failing run (a 500 from the
data source; a 429 from the transform source). -/
theorem claim_C1_witness :
    ((get_pokemon_species (fun _ => .status 500) [] "mewtwo").cache = [] ∧
      (get_pokemon_species (fun _ => .status 404) [] "mewtwo").requests =
        ["mewtwo"]) ∧
    ((TranslationClient.translate (fun _ _ => .status 429) (fun _ => 0) []
        "abc" "yoda").cache = [] ∧
      (TranslationClient.translate (fun _ _ => .transport "timeout")
        (fun _ => 0) [] "abc" "yoda").requests = [("yoda", "abc")]) :=
  ⟨⟨(claim_C1_amended.1 (fun _ => .status 500) [] "mewtwo" 503
      "External API Error: PokeAPI failed with status 500" (by decide)).1,
    (claim_C1_amended.1 (fun _ => .status 500) [] "mewtwo" 503
      "External API Error: PokeAPI failed with status 500" (by decide)).2
      (fun _ => .status 404)⟩,
   ⟨(claim_C1_amended.2 (fun _ _ => .status 429) (fun _ => 0) [] "abc" "yoda"
      (.http 503
        "External API Error: Translation API failed with status 429. Rate limit exceeded.")
      (by decide)).1,
    (claim_C1_amended.2 (fun _ _ => .status 429) (fun _ => 0) [] "abc" "yoda"
      (.http 503
        "External API Error: Translation API failed with status 429. Rate limit exceeded.")
      (by decide)).2 (fun _ _ => .transport "timeout")⟩⟩

/-- The upstream oracle for C9 (a well-formed ditto payload). -/
def c9Up : String → HttpResp := fun _ => .ok (.obj
  [("name", .str "ditto"),
   ("is_legendary", .bool false),
   ("habitat", .obj [("name", .str "urban")]),
   ("flavor_text_entries", .arr
     [.obj [("flavor_text", .str "It can transform into anything."),
            ("language", .obj [("name", .str "en")])]])])

set_option maxRecDepth 10000 in
/-- C9, evaluated (code bug): no `get_basic_info` call can succeed — even
this well-formed payload ends in the alias `ValidationError` — so the
claimed pair of consecutive successful calls cannot occur in the program
(the repo's own caching tests expect them to).  What the code does do:
the first call caches the serialized raw payload, and the second call
replays the identical error from the cache, through the
`jLoads`/`jDumps` roundtrip, issuing no upstream request (the second
oracle would 404 if consulted). -/
theorem claim_C9_eval :
    ((get_basic_info c9Up [] "ditto").result =
      .error (.py "ValidationError: flavor_text Field required")) ∧
    (get_basic_info (fun _ => .status 404)
        (get_basic_info c9Up [] "ditto").cache "ditto" =
      ⟨.error (.py "ValidationError: flavor_text Field required"),
        (get_basic_info c9Up [] "ditto").cache, []⟩) :=
  ⟨by decide, by decide⟩

/-- C10, amended: the transform cache key depends on the text only
through Python's built-in `hash`, so for any style and any two texts with
equal hash the two calls use the same cache entry, and a cached
**non-empty** result written for one text is returned for the other with
no upstream request (the adapter's truthiness test treats an empty cached
string as a miss); distinct texts are therefore not guaranteed distinct
cache entries. -/
theorem claim_C10_amended (hashF : String → Int) (style t1 t2 : String)
    (h : hashF t1 = hashF t2) :
    transCacheKey hashF style t1 = transCacheKey hashF style t2 ∧
    (∀ (up : String → String → HttpResp) (cache : Cache) (res : String)
        (c1 : Cache) (r : List (String × String)),
      TranslationClient.translate up hashF cache t1 style = ⟨.ok res, c1, r⟩ →
      res ≠ "" →
      ∀ up2 : String → String → HttpResp,
        TranslationClient.translate up2 hashF c1 t2 style = ⟨.ok res, c1, []⟩) := by
  have hkey : ("translation:" ++ style ++ ":" ++ toString (hashF t2)) =
      ("translation:" ++ style ++ ":" ++ toString (hashF t1)) := by rw [h]
  refine ⟨by simp [transCacheKey, h], ?_⟩
  intro up cache res c1 r hcall hne up2
  cases hh : redisHit cache ("translation:" ++ style ++ ":" ++ toString (hashF t1)) with
  | some cached =>
    have hfirst : TranslationClient.translate up hashF cache t1 style =
        ⟨.ok cached, cache, []⟩ := by
      simp [TranslationClient.translate, hh]
    rw [hfirst] at hcall
    simp only [TransOut.mk.injEq, Except.ok.injEq] at hcall
    obtain ⟨hres, hc, hr⟩ := hcall
    subst hres
    subst hc
    have hh2 : redisHit cache ("translation:" ++ style ++ ":" ++
        toString (hashF t2)) = some cached := by rw [hkey]; exact hh
    simp [TranslationClient.translate, hh2]
  | none =>
    cases hn : translateNetworkCall up t1 style with
    | error e =>
      have hfirst : TranslationClient.translate up hashF cache t1 style =
          ⟨.error e, cache, [(style, t1)]⟩ := by
        simp [TranslationClient.translate, hh, hn]
      rw [hfirst] at hcall
      simp at hcall
    | ok result =>
      have hfirst : TranslationClient.translate up hashF cache t1 style =
          ⟨.ok result,
            cacheSet cache ("translation:" ++ style ++ ":" ++ toString (hashF t1))
              result, [(style, t1)]⟩ := by
        simp [TranslationClient.translate, hh, hn]
      rw [hfirst] at hcall
      simp only [TransOut.mk.injEq, Except.ok.injEq] at hcall
      obtain ⟨hres, hc, hr⟩ := hcall
      subst hres
      have hh2 : redisHit c1 ("translation:" ++ style ++ ":" ++
          toString (hashF t2)) = some result := by
        rw [hkey, ← hc]
        simp [redisHit, cacheGet_set_self, hne]
      simp [TranslationClient.translate, hh2]

/-- The transform oracle returning an empty translated text (C10). -/
def c10EmptyUp : String → String → HttpResp := fun _ _ =>
  .ok (.obj [("contents", .obj [("translated", .str "")])])

/-- Counterexample for C10 as stated: with a constant hash, the empty
transform result cached for text "a" is **not** returned for the
hash-equal text "b" — the truthiness test treats the cached empty string
as a miss, so the second call issues a new upstream request (and here
fails with a 500 instead of replaying the cached result). -/
theorem claim_C10_counterexample :
    ((TranslationClient.translate c10EmptyUp (fun _ => 0) [] "a" "yoda").result =
      .ok "") ∧
    ((TranslationClient.translate c10EmptyUp (fun _ => 0) [] "a" "yoda").cache =
      [("translation:yoda:0", "")]) ∧
    ((TranslationClient.translate (fun _ _ => .status 500) (fun _ => 0)
        [("translation:yoda:0", "")] "b" "yoda").requests = [("yoda", "b")]) ∧
    ((TranslationClient.translate (fun _ _ => .status 500) (fun _ => 0)
        [("translation:yoda:0", "")] "b" "yoda").result ≠ .ok "") :=
  ⟨by decide, by decide, by decide, by decide⟩

/-- The transform oracle for the C10 witness. -/
def c10WordUp : String → String → HttpResp := fun _ _ =>
  .ok (.obj [("contents", .obj [("translated", .str "word")])])

/-- Witness for the amended C10: the non-empty result cached for "aa" is
returned for the hash-equal text "bb" with no upstream request (the
second oracle would 500 if consulted). -/
theorem claim_C10_witness :
    TranslationClient.translate (fun _ _ => .status 500) (fun _ => 5)
        (TranslationClient.translate c10WordUp (fun _ => 5) [] "aa" "yoda").cache
        "bb" "yoda" =
      ⟨.ok "word",
        (TranslationClient.translate c10WordUp (fun _ => 5) [] "aa" "yoda").cache,
        []⟩ := by
  have hres : (TranslationClient.translate c10WordUp (fun _ => 5) [] "aa"
      "yoda").result = .ok "word" := by decide
  have hcall : TranslationClient.translate c10WordUp (fun _ => 5) [] "aa" "yoda" =
      ⟨.ok "word",
        (TranslationClient.translate c10WordUp (fun _ => 5) [] "aa" "yoda").cache,
        (TranslationClient.translate c10WordUp (fun _ => 5) [] "aa"
          "yoda").requests⟩ := by
    rw [← hres]
  exact (claim_C10_amended (fun _ => 5) "yoda" "aa" "bb" rfl).2 c10WordUp [] "word"
    _ _ hcall (by decide) (fun _ _ => .status 500)
